import Mathlib

/-!
# Verification of the Model Factor Engine of `modelfactors.py`

This file gives a shallow embedding of the core logic of
`modelfactors.py` (BSC basicanalysis): the weak/strong scaling
classifier `get_scaling_type`, the per-run model-factor computation
`compute_model_factors`, the CSV export/import pair
`print_mod_factors_csv` / `read_mod_factors_csv`, and the string
emission part of `compute_projection` (fit formulas and the gnuplot
x-range substitution).

Python numbers (ints and floats) are modelled as rationals `ℚ`.  The
script stores the string `'NaN'` in a table cell whenever a guarded
computation raises (`try: ... except: v = 'NaN'`), and the builtin
`float('NaN')` produces the IEEE float nan, which propagates through
arithmetic without raising.  Both behaviours are captured by the
three-valued type `PyVal` below, and fallible Python expressions are
embedded in the `Except Unit` monad (`.error ()` standing for a raised
exception such as `ZeroDivisionError` or `TypeError`).
-/

namespace BasicAnalysis

/-- A Python value as it occurs in the raw-data and model-factor tables
of `modelfactors.py`: a finite number (int or float, modelled as a
rational), the IEEE float nan (as produced by `float('NaN')`), or the
literal string `'NaN'` stored by the `except` handlers and by
`gather_raw_data` for missing counters. -/
inductive PyVal where
  | num (q : ℚ)
  | nan
  | nanStr
deriving DecidableEq, Repr

/-- Python true division `a / b` restricted to the shapes occurring in
`modelfactors.py`: division of two numbers raises `ZeroDivisionError`
on a zero denominator, any operand that is the string `'NaN'` raises
`TypeError`, and an IEEE nan operand yields nan (unless the denominator
is a zero number, which still raises `ZeroDivisionError`). -/
def pyDiv : PyVal → PyVal → Except Unit PyVal
  | .nanStr, _ => .error ()
  | _, .nanStr => .error ()
  | .num a, .num b => if b = 0 then .error () else .ok (.num (a / b))
  | .nan, .num b => if b = 0 then .error () else .ok .nan
  | .num _, .nan => .ok .nan
  | .nan, .nan => .ok .nan

/-- Python multiplication as used in `compute_model_factors`: in every
multiplication of the script at least one operand is a float, so a
string operand raises `TypeError` (string repetition `str * int` never
occurs there); an IEEE nan operand yields nan. -/
def pyMul : PyVal → PyVal → Except Unit PyVal
  | .nanStr, _ => .error ()
  | _, .nanStr => .error ()
  | .num a, .num b => .ok (.num (a * b))
  | .nan, _ => .ok .nan
  | _, .nan => .ok .nan

/-- Python addition as used in the accumulation loop of
`get_scaling_type` (the operands there are always floats, possibly
nan; a string operand would raise `TypeError`). -/
def pyAdd : PyVal → PyVal → Except Unit PyVal
  | .nanStr, _ => .error ()
  | _, .nanStr => .error ()
  | .num a, .num b => .ok (.num (a + b))
  | .nan, _ => .ok .nan
  | _, .nan => .ok .nan

/-- The builtin `float(...)` applied to a table cell: a number is kept,
and the string `'NaN'` parses to the IEEE float nan (it does not
raise). -/
def pyFloat : PyVal → PyVal
  | .num q => .num q
  | .nan => .nan
  | .nanStr => .nan

/-- Python `v > eps` for a float `v` against a number literal: false
for nan (nan comparisons are always false).  The string case cannot
occur at the single use site (`normalized_inst_ratio > eps`), where the
left operand is the result of float arithmetic. -/
def pyGt (v : PyVal) (e : ℚ) : Bool :=
  match v with
  | .num q => decide (e < q)
  | .nan => false
  | .nanStr => false

/-- `try: v = e ... except: v = 'NaN'` — the guard wrapped around each
individual model-factor computation. -/
def tryNaN (e : Except Unit PyVal) : PyVal :=
  match e with
  | .ok v => v
  | .error _ => .nanStr

/-- `v` is the missing marker in the wide sense: either the `'NaN'`
string stored by the except handlers or the IEEE nan that
`float('NaN')` produces.  Both propagate and are rendered as a
non-number in every output path. -/
def PyVal.missing : PyVal → Prop := fun v => v = .nan ∨ v = .nanStr

instance : DecidablePred PyVal.missing := fun v => by
  unfold PyVal.missing; infer_instance

/-- `v` is a finite number. -/
def PyVal.isNum : PyVal → Bool
  | .num _ => true
  | _ => false

/-- The rational carried by a numeric `PyVal` (junk `0` otherwise). -/
def PyVal.toQ : PyVal → ℚ
  | .num q => q
  | _ => 0

/-- The eight raw counters of one run, keyed as in `raw_data_doc`
(`gather_raw_data` fills each with a number or with the string
`'NaN'`). -/
structure RawData where
  runtime : PyVal
  runtime_dim : PyVal
  useful_avg : PyVal
  useful_max : PyVal
  useful_tot : PyVal
  useful_dim : PyVal
  useful_ins : PyVal
  useful_cyc : PyVal
deriving DecidableEq, Repr

/-- One run of the campaign: its process count (from the `.row` file,
`trace_processes[trace]`) and its raw counters.  The run list is kept
in the script's order: ascending process count, reference run first. -/
structure Run where
  p : ℕ
  raw : RawData
deriving DecidableEq, Repr

/-- The thirteen derived model factors of one run, keyed as in
`mod_factors_doc` (declared order: parallel_eff, load_balance,
comm_eff, serial_eff, transfer_eff, comp_scale, global_eff, ipc_scale,
inst_scale, freq_scale, speedup, ipc, freq). -/
structure ModFactors where
  parallel_eff : PyVal
  load_balance : PyVal
  comm_eff : PyVal
  serial_eff : PyVal
  transfer_eff : PyVal
  comp_scale : PyVal
  global_eff : PyVal
  ipc_scale : PyVal
  inst_scale : PyVal
  freq_scale : PyVal
  speedup : PyVal
  ipc : PyVal
  freq : PyVal
deriving DecidableEq, Repr

/-- The campaign-wide scaling kind decided by the classifier. -/
inductive Scaling where
  | weak
  | strong
deriving DecidableEq, Repr

/-- The `--scaling` command-line argument consumed by
`get_scaling_type` (argparse restricts it to these three choices,
default `auto`). -/
inductive ScalingArg where
  | weak
  | strong
  | auto
deriving DecidableEq, Repr

/-- One iteration of the accumulation loop of `get_scaling_type`:
`inst_ratio = float(ins[trace]) / float(ins[ref])`,
`proc_ratio = float(P[trace]) / float(P[ref])`, and
`acc += inst_ratio / proc_ratio`.  Exceptions (a zero denominator)
propagate out of the function, which has no handler. -/
def scaling_step (refRun : Run) (acc : PyVal) (run : Run) : Except Unit PyVal := do
  let inst_ratio ← pyDiv (pyFloat run.raw.useful_ins) (pyFloat refRun.raw.useful_ins)
  let proc_ratio ← pyDiv (.num (run.p : ℚ)) (.num (refRun.p : ℚ))
  let t ← pyDiv inst_ratio proc_ratio
  pyAdd acc t

/-- The classification computed by `get_scaling_type` for two or more
runs: accumulate the per-run normalized instruction ratios over the
whole run list (reference run included), set
`normalized = (sum - 1) / (count - 1)`, and compare against
`eps = 0.9` (strictly greater means weak). -/
def computed_scaling (runs : List Run) : Except Unit Scaling := do
  let sum ← match runs with
    | [] => Except.ok (PyVal.num 0)
    | r :: _ => runs.foldlM (scaling_step r) (PyVal.num 0)
  let d ← pyAdd sum (.num (-1))
  let normalized ← pyDiv d (.num ((runs.length : ℚ) - 1))
  Except.ok (if pyGt normalized (9/10) then Scaling.weak else Scaling.strong)

/-- `get_scaling_type`: a single-run campaign returns strong before the
forced mode is even consulted; otherwise the computed classification is
returned for `auto`, and a forced mode is returned as is, together with
a flag recording whether the disagreement warning was printed. -/
def get_scaling_type (runs : List Run) (mode : ScalingArg) :
    Except Unit (Scaling × Bool) :=
  if runs.length = 1 then Except.ok (Scaling.strong, false)
  else do
    let c ← computed_scaling runs
    match mode with
    | .auto => Except.ok (c, false)
    | .weak => Except.ok (Scaling.weak, decide (c = Scaling.strong))
    | .strong => Except.ok (Scaling.strong, decide (c = Scaling.weak))

/-- `mod_factors['ipc'][trace] = float(ins) / float(cyc)`, guarded. -/
def ipc_of (r : RawData) : PyVal :=
  tryNaN (pyDiv (pyFloat r.useful_ins) (pyFloat r.useful_cyc))

/-- `mod_factors['freq'][trace] = float(cyc) / float(tot) / 1000`,
guarded. -/
def freq_of (r : RawData) : PyVal :=
  tryNaN (do
    let a ← pyDiv (pyFloat r.useful_cyc) (pyFloat r.useful_tot)
    pyDiv a (.num 1000))

/-- The body of the per-trace loop of `compute_model_factors`: the
unguarded `proc_ratio` division first, then the thirteen individually
guarded factor computations, later factors reusing the already stored
values of earlier ones (of this run and of the reference run). -/
def compute_trace (scaling : Scaling) (refRun run : Run) :
    Except Unit ModFactors := do
  let proc_ratio ← pyDiv (.num (run.p : ℚ)) (.num (refRun.p : ℚ))
  let load_balance := tryNaN (do
    let a ← pyDiv run.raw.useful_avg run.raw.useful_max
    pyMul a (.num 100))
  let comm_eff := tryNaN (do
    let a ← pyDiv run.raw.useful_max run.raw.runtime
    pyMul a (.num 100))
  let serial_eff := tryNaN (do
    let a ← pyDiv run.raw.useful_dim run.raw.runtime_dim
    pyMul a (.num 100))
  let transfer_eff := tryNaN (do
    let a ← pyDiv comm_eff serial_eff
    pyMul a (.num 100))
  let parallel_eff := tryNaN (do
    let a ← pyMul load_balance comm_eff
    pyDiv a (.num 100))
  let comp_scale := tryNaN (
    match scaling with
    | .strong => do
        let a ← pyDiv refRun.raw.useful_tot run.raw.useful_tot
        pyMul a (.num 100)
    | .weak => do
        let a ← pyDiv refRun.raw.useful_tot run.raw.useful_tot
        let b ← pyMul a proc_ratio
        pyMul b (.num 100))
  let global_eff := tryNaN (do
    let a ← pyMul parallel_eff comp_scale
    pyDiv a (.num 100))
  let ipc := ipc_of run.raw
  let ipc_scale := tryNaN (do
    let a ← pyDiv ipc (ipc_of refRun.raw)
    pyMul a (.num 100))
  let freq := freq_of run.raw
  let freq_scale := tryNaN (do
    let a ← pyDiv freq (freq_of refRun.raw)
    pyMul a (.num 100))
  let inst_scale := tryNaN (
    match scaling with
    | .strong => do
        let a ← pyDiv (pyFloat refRun.raw.useful_ins) (pyFloat run.raw.useful_ins)
        pyMul a (.num 100)
    | .weak => do
        let a ← pyDiv (pyFloat refRun.raw.useful_ins) (pyFloat run.raw.useful_ins)
        let b ← pyMul a proc_ratio
        pyMul b (.num 100))
  let speedup := tryNaN (
    match scaling with
    | .strong => pyDiv refRun.raw.runtime run.raw.runtime
    | .weak => do
        let a ← pyDiv refRun.raw.runtime run.raw.runtime
        pyMul a proc_ratio)
  Except.ok {
    parallel_eff := parallel_eff
    load_balance := load_balance
    comm_eff := comm_eff
    serial_eff := serial_eff
    transfer_eff := transfer_eff
    comp_scale := comp_scale
    global_eff := global_eff
    ipc_scale := ipc_scale
    inst_scale := inst_scale
    freq_scale := freq_scale
    speedup := speedup
    ipc := ipc
    freq := freq }

/-- `compute_model_factors`: derive the scaling kind via
`get_scaling_type` (whose exceptions escape unguarded), then run the
per-trace loop; the reference run is the first list element.  The
result list is aligned with the run list. -/
def compute_model_factors (runs : List Run) (mode : ScalingArg) :
    Except Unit (List ModFactors) := do
  let st ← get_scaling_type runs mode
  match runs with
  | [] => Except.ok []
  | refRun :: _ => runs.mapM (compute_trace st.1 refRun)

instance {e a : Type} [DecidableEq e] [DecidableEq a] : DecidableEq (Except e a) := fun x y =>
  match x, y with
  | .ok v, .ok w =>
    if h : v = w then .isTrue (by rw [h]) else .isFalse (fun hc => h (Except.ok.inj hc))
  | .error v, .error w =>
    if h : v = w then .isTrue (by rw [h]) else .isFalse (fun hc => h (Except.error.inj hc))
  | .ok _, .error _ => .isFalse (fun hc => Except.noConfusion hc)
  | .error _, .ok _ => .isFalse (fun hc => Except.noConfusion hc)

/-- The summand contributed by one run to the accumulated normalized
instruction ratio of `get_scaling_type`, as a plain rational:
`(ins[run] / ins[ref]) / (P[run] / P[ref])`. -/
def instTerm (refRun run : Run) : ℚ :=
  (run.raw.useful_ins.toQ / refRun.raw.useful_ins.toQ) /
    ((run.p : ℚ) / (refRun.p : ℚ))

/-- The normalized instruction ratio of `get_scaling_type` as a plain
rational: `(sum - 1) / (count - 1)` over all runs. -/
def normalizedQ (refRun : Run) (runs : List Run) : ℚ :=
  ((runs.map (instTerm refRun)).sum - 1) / ((runs.length : ℚ) - 1)

/-- A run whose only relevant counters are the process count and the
useful-instruction count (all others zero), used for classifier
scenarios. -/
def mkRun (p : ℕ) (ins : ℚ) : Run :=
  ⟨p, ⟨.num 0, .num 0, .num 0, .num 0, .num 0, .num 0, .num ins, .num 0⟩⟩

/-- The reference run (P = 1) of the worked two-run scenario of §8 of
the spec: runtime 100, ideal runtime 90, useful avg/max/total/ideal-max
all 90, 1000 instructions, 2000 cycles. -/
def c1_ref : Run :=
  ⟨1, ⟨.num 100, .num 90, .num 90, .num 90, .num 90, .num 90, .num 1000, .num 2000⟩⟩

/-- The P = 4 run of the worked two-run scenario: runtime 30, ideal
runtime 26, useful avg 80, max 85, total 85, ideal-max 85, 1050
instructions, 2100 cycles. -/
def c1_p4 : Run :=
  ⟨4, ⟨.num 30, .num 26, .num 80, .num 85, .num 85, .num 85, .num 1050, .num 2100⟩⟩

/-- The analytical model selected by `--model`. -/
inductive PModel where
  | amdahl
  | pipe
  | linear
deriving DecidableEq, Repr

/-- The five gnuplot fit-formula strings built by `compute_projection`
(`para_fit`, `load_fit`, `comm_fit`, `comp_fit`, `glob_fit`). -/
structure FitStrings where
  para_fit : String
  load_fit : String
  comm_fit : String
  comp_fit : String
  glob_fit : String
deriving DecidableEq, Repr

/-- Python `' '.join(...)`. -/
def joinSp (l : List String) : String := String.intercalate " " l

/-- The formula-string construction of `compute_projection` (lines
871-899).  `x0ref` stands for `str(x_proc[0])` and each parameter pair
for `(str(opt[0]), str(opt[1]))` of one factor's fitted parameters.
In every model branch the `para` and `glob` formulas are assigned the
composed products (the independent-fit variants are commented out in
the source). -/
def projection_fit_strings (m : PModel) (x0ref : String)
    (para load comm comp glob : String × String) : FitStrings :=
  match m with
  | .amdahl =>
    { para_fit := joinSp ["para( x ) = load( x ) * comm( x ) / 100"]
      load_fit := joinSp ["load( x ) = ( x >", x0ref, ") ?", load.1, "/ (", load.2,
        "+ ( 1 -", load.2, ") * x ) : 1/0"]
      comm_fit := joinSp ["comm( x ) = ( x >", x0ref, ") ?", comm.1, "/ (", comm.2,
        "+ ( 1 -", comm.2, ") * x ) : 1/0"]
      comp_fit := joinSp ["comp( x ) = ( x >", x0ref, ") ?", comp.1, "/ (", comp.2,
        "+ ( 1 -", comp.2, ") * x ) : 1/0"]
      glob_fit := joinSp ["glob( x ) = para( x ) * comp( x ) / 100"] }
  | .pipe =>
    { para_fit := joinSp ["para( x ) = load( x ) * comm( x ) / 100"]
      load_fit := joinSp ["load( x ) = ( x >", x0ref, ") ?", load.1, "* x / ( ( 1 -", load.2,
        ") +", load.2, "* ( 2 * x - 1 ) ) : 1/0"]
      comm_fit := joinSp ["comm( x ) = ( x >", x0ref, ") ?", comm.1, "* x / ( ( 1 -", comm.2,
        ") +", comm.2, "* ( 2 * x - 1 ) ) : 1/0"]
      comp_fit := joinSp ["comp( x ) = ( x >", x0ref, ") ?", comp.1, "* x / ( ( 1 -", comp.2,
        ") +", comp.2, "* ( 2 * x - 1 ) ) : 1/0"]
      glob_fit := joinSp ["glob( x ) = para( x ) * comp( x ) / 100"] }
  | .linear =>
    { para_fit := joinSp ["para( x ) = load( x ) * comm( x ) / 100"]
      load_fit := joinSp ["load( x ) = ( x >", x0ref, ") ?", load.1, "+ x *", load.2, ": 1/0"]
      comm_fit := joinSp ["comm( x ) = ( x >", x0ref, ") ?", comm.1, "+ x *", comm.2, ": 1/0"]
      comp_fit := joinSp ["comp( x ) = ( x >", x0ref, ") ?", comp.1, "+ x *", comp.2, ": 1/0"]
      glob_fit := joinSp ["glob( x ) = para( x ) * comp( x ) / 100"] }

/-- The curve-fit parameter box of `compute_projection` (lines
835-840), `([x0_lo, f_lo], [x0_hi, f_hi])`, with `none` standing for an
infinite (absent) bound. -/
structure FitBounds where
  x0_lo : Option ℚ
  x0_hi : Option ℚ
  f_lo : Option ℚ
  f_hi : Option ℚ
deriving DecidableEq, Repr

/-- `bounds = ([-inf, 0], [inf, 1])` when `--bounds yes` (the default),
`([-inf, -inf], [inf, inf])` when `--bounds no`; the same box is passed
to every `curve_fit` call, whatever the selected model. -/
def fit_bounds : Bool → FitBounds
  | true => ⟨none, none, some 0, some 1⟩
  | false => ⟨none, none, none, none⟩

/-- The parameter pair `(x0, f)` satisfies the bound box (the contract
that a bounded least-squares solver guarantees for its result). -/
def inBounds (b : FitBounds) (x0 f : ℚ) : Prop :=
  (∀ l ∈ b.x0_lo, l ≤ x0) ∧ (∀ h ∈ b.x0_hi, x0 ≤ h) ∧
    (∀ l ∈ b.f_lo, l ≤ f) ∧ (∀ h ∈ b.f_hi, f ≤ h)

/-- The `--limit` argument handling of `compute_projection` (lines
830-833): the limit is the given string when truthy, the default
`'10000'` when absent (or empty, by Python truthiness). -/
def proj_limit : Option String → String
  | some l => if l = "" then "10000" else l
  | none => "10000"

/-- The text substituted for the `#REPLACE_BY_XRANGE` placeholder
(line 908): `''.join(['set xrange [1:', limit, ']'])` — the lower end
is the literal 1, not the reference run's process count. -/
def xrange_replacement (limit : String) : String :=
  "set xrange [1:" ++ limit ++ "]"

/-- Modelled from the spec: the replacement text the claim describes,
an x-axis range from the reference run's process count to the limit. -/
def xrange_claimed (pref : ℕ) (limit : String) : String :=
  "set xrange [" ++ toString pref ++ ":" ++ limit ++ "]"

/-- Modelled from the spec: the gnuplot template
`cfgs/modelfactors.gp` (not under `src/`) carries each named
placeholder on a line of its own, so `line.replace(placeholder, repl)`
rewrites exactly the placeholder line and leaves every other line
unchanged. -/
def replace_line (placeholder repl line : String) : String :=
  if line = placeholder then repl else line

/-- The x-range substitution pass over the template content
(line 908 applied to every line). -/
def apply_xrange (content : List String) (limit : String) : List String :=
  content.map (replace_line "#REPLACE_BY_XRANGE" (xrange_replacement limit))

/-- The rational denoted by `'{0:.6f}'.format(q)`: `q` rounded to six
decimal places. -/
def round6 (q : ℚ) : ℚ := ((round (q * 1000000) : ℤ) : ℚ) / 1000000

/-- One CSV cell written by `print_mod_factors_csv`, abstracted to the
value its text denotes: a finite value is rendered with
`'{0:.6f}'.format` (six decimal places, modelled as the scaled rounded
integer), while both the float nan (rendered `nan`) and the `'NaN'`
string (rendered by the `ValueError` fallback) denote no number. -/
def export_cell : PyVal → Option ℤ
  | .num q => some (round (q * 1000000))
  | .nan => none
  | .nanStr => none

/-- One CSV cell read back by `read_mod_factors_csv` via `float(...)`:
a six-decimal numeral parses to exactly the rational it denotes, and a
non-numeric cell parses to the float nan. -/
def import_cell : Option ℤ → PyVal
  | some z => .num ((z : ℚ) / 1000000)
  | none => .nan

/-- The numeric content of `modelfactors.csv`: the header row's
process-count fields (row label and `;` delimiters abstracted away)
and the thirteen factor rows in the declared `mod_factors_doc` key
order, one cell per run. -/
structure CsvDoc where
  header : List ℕ
  rows : List (List (Option ℤ))
deriving DecidableEq, Repr

/-- `print_mod_factors_csv`: header row of process counts, then one
row per model-factor key in declared order, each cell formatted to six
decimal places (or a non-numeric marker). -/
def print_mod_factors_csv (procs : List ℕ) (factors : List ModFactors) : CsvDoc where
  header := procs
  rows :=
    [factors.map (fun m => export_cell m.parallel_eff),
     factors.map (fun m => export_cell m.load_balance),
     factors.map (fun m => export_cell m.comm_eff),
     factors.map (fun m => export_cell m.serial_eff),
     factors.map (fun m => export_cell m.transfer_eff),
     factors.map (fun m => export_cell m.comp_scale),
     factors.map (fun m => export_cell m.global_eff),
     factors.map (fun m => export_cell m.ipc_scale),
     factors.map (fun m => export_cell m.inst_scale),
     factors.map (fun m => export_cell m.freq_scale),
     factors.map (fun m => export_cell m.speedup),
     factors.map (fun m => export_cell m.ipc),
     factors.map (fun m => export_cell m.freq)]

/-- `read_mod_factors_csv`: the header fields become the synthetic run
list (each run's process count is its own header value), and the
following rows populate the model factors in declared key order.
Stated on well-formed documents (as produced by the export); absent
cells default like non-numeric ones. -/
def read_mod_factors_csv (d : CsvDoc) : List ℕ × List ModFactors :=
  (d.header,
   (List.range d.header.length).map fun i =>
     { parallel_eff := import_cell ((d.rows.getD 0 []).getD i none)
       load_balance := import_cell ((d.rows.getD 1 []).getD i none)
       comm_eff := import_cell ((d.rows.getD 2 []).getD i none)
       serial_eff := import_cell ((d.rows.getD 3 []).getD i none)
       transfer_eff := import_cell ((d.rows.getD 4 []).getD i none)
       comp_scale := import_cell ((d.rows.getD 5 []).getD i none)
       global_eff := import_cell ((d.rows.getD 6 []).getD i none)
       ipc_scale := import_cell ((d.rows.getD 7 []).getD i none)
       inst_scale := import_cell ((d.rows.getD 8 []).getD i none)
       freq_scale := import_cell ((d.rows.getD 9 []).getD i none)
       speedup := import_cell ((d.rows.getD 10 []).getD i none)
       ipc := import_cell ((d.rows.getD 11 []).getD i none)
       freq := import_cell ((d.rows.getD 12 []).getD i none) })

/-- Export followed by import of one value. -/
def reread (v : PyVal) : PyVal := import_cell (export_cell v)

/-- Export followed by import of one run's factors. -/
def rereadMF (m : ModFactors) : ModFactors :=
  ⟨reread m.parallel_eff, reread m.load_balance, reread m.comm_eff, reread m.serial_eff,
   reread m.transfer_eff, reread m.comp_scale, reread m.global_eff, reread m.ipc_scale,
   reread m.inst_scale, reread m.freq_scale, reread m.speedup, reread m.ipc, reread m.freq⟩

/-- The thirteen factor values of one run in declared key order. -/
def ModFactors.fieldsList (m : ModFactors) : List PyVal :=
  [m.parallel_eff, m.load_balance, m.comm_eff, m.serial_eff, m.transfer_eff,
   m.comp_scale, m.global_eff, m.ipc_scale, m.inst_scale, m.freq_scale,
   m.speedup, m.ipc, m.freq]

/-- All thirteen factor values of the run are finite numbers. -/
def ModFactors.allNum (m : ModFactors) : Prop :=
  ∀ v ∈ m.fieldsList, v.isNum = true

/-- Two values are both finite numbers and agree to six decimal
places. -/
def close6 (a b : PyVal) : Prop :=
  ∃ qa qb, a = .num qa ∧ b = .num qb ∧ |qa - qb| ≤ 1 / 1000000

/-- Two factor sets agree, factor by factor, to six decimal places. -/
def MFclose (a b : ModFactors) : Prop :=
  List.Forall₂ close6 a.fieldsList b.fieldsList

/-! ## Basic lemmas about the embedded Python primitives -/

theorem bind_ok {a b : Type} (x : a) (f : a → Except Unit b) :
    (Except.ok x >>= f) = f x := rfl

theorem bind_error {a b : Type} (f : a → Except Unit b) :
    ((Except.error () : Except Unit a) >>= f) = Except.error () := rfl

theorem pyFloat_num (q : ℚ) : pyFloat (.num q) = .num q := rfl

theorem pyDiv_num_num {b : ℚ} (a : ℚ) (hb : b ≠ 0) :
    pyDiv (.num a) (.num b) = .ok (.num (a / b)) := by
  simp [pyDiv, hb]

theorem pyDiv_zero_den (a : PyVal) : pyDiv a (.num 0) = .error () := by
  cases a <;> simp [pyDiv]

theorem pyMul_num_num (a b : ℚ) : pyMul (.num a) (.num b) = .ok (.num (a * b)) := rfl

theorem pyAdd_num_num (a b : ℚ) : pyAdd (.num a) (.num b) = .ok (.num (a + b)) := rfl

theorem pyFloat_ne_nanStr (v : PyVal) : pyFloat v ≠ .nanStr := by
  cases v <;> simp [pyFloat]

theorem pyFloat_ne_zero {v : PyVal} (h : v ≠ .num 0) : pyFloat v ≠ .num 0 := by
  cases v <;> simp_all [pyFloat]

theorem isNum_eq_num {v : PyVal} (h : v.isNum = true) : v = .num v.toQ := by
  cases v <;> simp_all [PyVal.isNum, PyVal.toQ]

/-- A guarded `a / b * 100` is missing whenever the numerator is. -/
theorem tryNaN_div_mul_missing_left {a : PyVal} (b : PyVal) (ha : a.missing) :
    (tryNaN (do
      let x ← pyDiv a b
      pyMul x (.num 100))).missing := by
  rcases ha with h | h <;> subst h
  · cases b with
    | num q =>
        by_cases hq : q = 0 <;>
          simp [pyDiv, pyMul, tryNaN, PyVal.missing, hq, bind_ok, bind_error]
    | nan => simp [pyDiv, pyMul, tryNaN, PyVal.missing, bind_ok]
    | nanStr => simp [pyDiv, tryNaN, PyVal.missing, bind_error]
  · cases b <;> simp [pyDiv, tryNaN, PyVal.missing, bind_error]

/-- A guarded `a / b * 100` is missing whenever the denominator is. -/
theorem tryNaN_div_mul_missing_right (a : PyVal) {b : PyVal} (hb : b.missing) :
    (tryNaN (do
      let x ← pyDiv a b
      pyMul x (.num 100))).missing := by
  rcases hb with h | h <;> subst h <;>
    cases a <;>
    simp [pyDiv, pyMul, tryNaN, PyVal.missing, bind_ok, bind_error]

/-- Dividing by the float nan never raises and yields a missing value. -/
theorem tryNaN_div_nan_missing (a : PyVal) : (tryNaN (pyDiv a .nan)).missing := by
  cases a <;> simp [pyDiv, tryNaN, PyVal.missing]

/-- `ipc` is missing when the cycle counter is the `'NaN'` string
(`float('NaN')` turns it into the float nan, which propagates). -/
theorem ipc_of_missing {r : RawData} (h : r.useful_cyc = .nanStr) :
    (ipc_of r).missing := by
  unfold ipc_of
  rw [h]
  exact tryNaN_div_nan_missing _

/-! ## C1: the worked two-run scenario -/

/-- C1.  For the two-run campaign of the worked scenario (reference
P = 1 with useful avg/max/total/ideal-max 90, runtime 100, ideal
runtime 90, 1000 instructions, 2000 cycles; run P = 4 with useful avg
80, max/total/ideal-max 85, runtime 30, ideal runtime 26, 1050
instructions, 2100 cycles) under strong scaling,
`compute_model_factors` yields for the P = 4 run exactly the §4.2
values: load_balance = 1600/17 ≈ 94.12, comm_eff = 850/3 ≈ 283.33,
serial_eff = 4250/13 ≈ 326.92, transfer_eff = 260/3 ≈ 86.67,
parallel_eff = 800/3 ≈ 266.67, comp_scale = 1800/17 ≈ 105.88,
global_eff = 4800/17 ≈ 282.35, ipc = 1/2, ipc_scale = 100,
inst_scale = 2000/21 ≈ 95.24, freq_scale = 1890/17, speedup = 10/3 ≈
3.33. -/
theorem c1_worked_scenario :
    compute_model_factors [c1_ref, c1_p4] ScalingArg.strong = Except.ok
      [{ parallel_eff := .num 90, load_balance := .num 100, comm_eff := .num 90,
         serial_eff := .num 100, transfer_eff := .num 90, comp_scale := .num 100,
         global_eff := .num 90, ipc_scale := .num 100, inst_scale := .num 100,
         freq_scale := .num 100, speedup := .num 1, ipc := .num (1/2),
         freq := .num (1/45) },
       { parallel_eff := .num (800/3), load_balance := .num (1600/17),
         comm_eff := .num (850/3), serial_eff := .num (4250/13),
         transfer_eff := .num (260/3), comp_scale := .num (1800/17),
         global_eff := .num (4800/17), ipc_scale := .num 100,
         inst_scale := .num (2000/21), freq_scale := .num (1890/17),
         speedup := .num (10/3), ipc := .num (1/2), freq := .num (21/850) }] := by
  with_unfolding_all rfl

/-! ## C4: single-run campaigns are always strong -/

/-- C4.  For every campaign consisting of exactly one run the
classifier returns strong, whatever the raw counters and even whatever
the requested mode are (the single-run early return precedes the
override handling). -/
theorem c4_single_run_strong (r : Run) (mode : ScalingArg) :
    get_scaling_type [r] mode = Except.ok (Scaling.strong, false) := by
  simp [get_scaling_type]

/-! ## C5: override semantics -/

/-- C5 counterexample.  On a single-run campaign with the mode forced
to weak, `get_scaling_type` returns strong, not the forced mode: the
single-run early return fires before the override is consulted.  This
refutes the claim's "for every campaign ... the classifier's result is
the forced mode". -/
theorem c5_override_counterexample :
    Except.map Prod.fst (get_scaling_type [mkRun 1 1000] ScalingArg.weak) ≠
      Except.ok Scaling.weak := by
  with_unfolding_all decide

/-- C5 amended.  For every campaign with at least two runs whose
computed classification succeeds, a forced mode is returned as is,
with the warning emitted exactly when the computed classification
disagrees, and `auto` returns the computed classification without a
warning.  (Single-run campaigns return strong unconditionally,
bypassing the override — see the counterexample.) -/
theorem c5_override_amended (runs : List Run) (c : Scaling)
    (h2 : 2 ≤ runs.length) (hc : computed_scaling runs = .ok c) :
    get_scaling_type runs ScalingArg.weak =
      Except.ok (Scaling.weak, decide (c = Scaling.strong)) ∧
    get_scaling_type runs ScalingArg.strong =
      Except.ok (Scaling.strong, decide (c = Scaling.weak)) ∧
    get_scaling_type runs ScalingArg.auto = Except.ok (c, false) := by
  have hne : runs.length ≠ 1 := by omega
  refine ⟨?_, ?_, ?_⟩ <;> simp [get_scaling_type, hne, hc, bind_ok]

/-- C5 amended, witness: the two-run campaign with instruction counts
1000 at P = 1 and 4000 at P = 4 computes weak, so forcing weak or
strong returns the forced mode (warning exactly on disagreement) and
auto returns weak. -/
theorem c5_override_amended_witness :
    get_scaling_type [mkRun 1 1000, mkRun 4 4000] ScalingArg.weak =
      Except.ok (Scaling.weak, decide (Scaling.weak = Scaling.strong)) ∧
    get_scaling_type [mkRun 1 1000, mkRun 4 4000] ScalingArg.strong =
      Except.ok (Scaling.strong, decide (Scaling.weak = Scaling.weak)) ∧
    get_scaling_type [mkRun 1 1000, mkRun 4 4000] ScalingArg.auto =
      Except.ok (Scaling.weak, false) :=
  c5_override_amended [mkRun 1 1000, mkRun 4 4000] Scaling.weak (by decide)
    (by with_unfolding_all rfl)

/-! ## C6: composed projection formulas -/

/-- C6.  For every model choice and all fitted parameters, the emitted
`para` formula is the product `load( x ) * comm( x ) / 100` and the
emitted `glob` formula is `para( x ) * comp( x ) / 100`, and the whole
emitted formula set does not depend on the independently fitted
parameters of `parallel_eff` and `global_eff`. -/
theorem c6_composed_formulas (m : PModel) (x0ref : String)
    (para load comm comp glob para' glob' : String × String) :
    (projection_fit_strings m x0ref para load comm comp glob).para_fit =
      "para( x ) = load( x ) * comm( x ) / 100" ∧
    (projection_fit_strings m x0ref para load comm comp glob).glob_fit =
      "glob( x ) = para( x ) * comp( x ) / 100" ∧
    projection_fit_strings m x0ref para load comm comp glob =
      projection_fit_strings m x0ref para' load comm comp glob' := by
  cases m <;> exact ⟨rfl, rfl, rfl⟩

/-! ## C7: bound box of the curve fit -/

/-- C7.  With the bounds flag enabled the fit is constrained with
`f ∈ [0, 1]` and `x0` unconstrained — so any parameters a
bound-respecting solver returns (for any model, in particular amdahl
and pipe) have `f ∈ [0, 1]` — and with the flag disabled the box
constrains nothing. -/
theorem c7_fit_bounds :
    (∀ x0 f : ℚ, inBounds (fit_bounds true) x0 f → 0 ≤ f ∧ f ≤ 1) ∧
    (∀ x0 f : ℚ, inBounds (fit_bounds false) x0 f) ∧
    (fit_bounds true).x0_lo = none ∧ (fit_bounds true).x0_hi = none := by
  refine ⟨?_, ?_, rfl, rfl⟩
  · rintro x0 f ⟨-, -, hl, hh⟩
    exact ⟨hl 0 rfl, hh 1 rfl⟩
  · intro x0 f
    refine ⟨?_, ?_, ?_, ?_⟩ <;> simp [fit_bounds]

/-- C7 witness: the concrete pair `(x0, f) = (-7, 1/2)` lies in the
enabled bound box, so the theorem yields `0 ≤ 1/2 ∧ 1/2 ≤ 1`; and the
disabled box constrains the arbitrary pair `(5, 9)`. -/
theorem c7_fit_bounds_witness :
    (0 ≤ (1/2 : ℚ) ∧ (1/2 : ℚ) ≤ 1) ∧ inBounds (fit_bounds false) 5 9 :=
  ⟨c7_fit_bounds.1 (-7) (1/2)
      (by refine ⟨?_, ?_, ?_, ?_⟩ <;> simp [fit_bounds] <;> norm_num),
    c7_fit_bounds.2.1 5 9⟩

/-! ## C8: the x-axis range substitution -/

/-- C8 counterexample.  The emitted x-range replacement is built from
the literal lower end 1 independently of the reference process count:
with default limit it reads `set xrange [1:10000]`, which differs from
the claim's `[P[ref], limit]` range for a campaign whose smallest run
has P = 2. -/
theorem c8_xrange_counterexample :
    xrange_replacement (proj_limit none) = "set xrange [1:10000]" ∧
    xrange_claimed 2 (proj_limit none) = "set xrange [2:10000]" ∧
    xrange_replacement (proj_limit none) ≠ xrange_claimed 2 (proj_limit none) := by
  refine ⟨by with_unfolding_all rfl, by with_unfolding_all rfl, ?_⟩
  with_unfolding_all decide

/-- C8 amended.  The x-axis range placeholder is replaced by the range
`[1, limit]` — lower end the literal 1, whatever the reference process
count — with `limit` the configured extrapolation limit, defaulting to
`'10000'`; the substitution rewrites exactly the placeholder line of
the template. -/
theorem c8_xrange_amended :
    (∀ limit : String, xrange_replacement limit = xrange_claimed 1 limit) ∧
    proj_limit none = "10000" ∧
    apply_xrange ["set title", "#REPLACE_BY_XRANGE", "plot"] (proj_limit none) =
      ["set title", "set xrange [1:10000]", "plot"] := by
  refine ⟨?_, rfl, by with_unfolding_all rfl⟩
  intro limit
  with_unfolding_all rfl

/-! ## C2: missing-value propagation in the factor engine -/

/-- A run of the worked scenario whose cycle counter is missing. -/
def c2run : Run :=
  ⟨4, ⟨.num 30, .num 26, .num 80, .num 85, .num 85, .num 85, .num 1050, .nanStr⟩⟩

/-- C2.  Per-run missing propagation of `compute_model_factors`: with
a valid reference process count the per-trace computation always
returns a factor set, and in it (a) a missing cycle counter makes
`ipc` and `ipc_scale` missing, (b) `load_balance` and `comm_eff` are
still computed from their own inputs whenever those are present with
nonzero denominators, (c) a missing reference `ipc` or `freq` poisons
this run's `ipc_scale` or `freq_scale`, and (d) a zero denominator
(useful_max = 0) makes exactly `load_balance` the `'NaN'` marker. -/
theorem c2_missing_propagation (scaling : Scaling) (refRun run : Run)
    (hp : refRun.p ≠ 0) :
    ∃ mf, compute_trace scaling refRun run = .ok mf ∧
      (run.raw.useful_cyc = .nanStr → mf.ipc.missing ∧ mf.ipc_scale.missing) ∧
      (run.raw.useful_avg.isNum = true → run.raw.useful_max.isNum = true →
        run.raw.useful_max.toQ ≠ 0 →
        mf.load_balance = .num (run.raw.useful_avg.toQ / run.raw.useful_max.toQ * 100)) ∧
      (run.raw.useful_max.isNum = true → run.raw.runtime.isNum = true →
        run.raw.runtime.toQ ≠ 0 →
        mf.comm_eff = .num (run.raw.useful_max.toQ / run.raw.runtime.toQ * 100)) ∧
      ((ipc_of refRun.raw).missing → mf.ipc_scale.missing) ∧
      ((freq_of refRun.raw).missing → mf.freq_scale.missing) ∧
      (run.raw.useful_max = .num 0 → mf.load_balance = .nanStr) := by
  have hpq : ((refRun.p : ℚ)) ≠ 0 := by exact_mod_cast hp
  unfold compute_trace
  simp only [pyDiv_num_num _ hpq, bind_ok]
  refine ⟨_, rfl, ?_, ?_, ?_, ?_, ?_, ?_⟩
  · intro hcyc
    exact ⟨ipc_of_missing hcyc, tryNaN_div_mul_missing_left _ (ipc_of_missing hcyc)⟩
  · intro h1 h2 h3
    obtain ⟨qa, ha⟩ : ∃ q, run.raw.useful_avg = .num q := ⟨_, isNum_eq_num h1⟩
    obtain ⟨qm, hm⟩ : ∃ q, run.raw.useful_max = .num q := ⟨_, isNum_eq_num h2⟩
    rw [hm] at h3
    simp only [PyVal.toQ] at h3
    rw [ha, hm]
    simp [pyDiv_num_num _ h3, bind_ok, pyMul_num_num, tryNaN, PyVal.toQ]
  · intro h1 h2 h3
    obtain ⟨qm, hm⟩ : ∃ q, run.raw.useful_max = .num q := ⟨_, isNum_eq_num h1⟩
    obtain ⟨qr, hr⟩ : ∃ q, run.raw.runtime = .num q := ⟨_, isNum_eq_num h2⟩
    rw [hr] at h3
    simp only [PyVal.toQ] at h3
    rw [hm, hr]
    simp [pyDiv_num_num _ h3, bind_ok, pyMul_num_num, tryNaN, PyVal.toQ]
  · intro h
    exact tryNaN_div_mul_missing_right _ h
  · intro h
    exact tryNaN_div_mul_missing_right _ h
  · intro h0
    rw [h0, pyDiv_zero_den, bind_error]
    rfl

/-- C2 witness: the worked-scenario reference run together with a
P = 4 run whose cycle counter is the `'NaN'` marker. -/
theorem c2_missing_propagation_witness :
    ∃ mf, compute_trace Scaling.strong c1_ref c2run = .ok mf ∧
      (c2run.raw.useful_cyc = .nanStr → mf.ipc.missing ∧ mf.ipc_scale.missing) ∧
      (c2run.raw.useful_avg.isNum = true → c2run.raw.useful_max.isNum = true →
        c2run.raw.useful_max.toQ ≠ 0 →
        mf.load_balance = .num (c2run.raw.useful_avg.toQ / c2run.raw.useful_max.toQ * 100)) ∧
      (c2run.raw.useful_max.isNum = true → c2run.raw.runtime.isNum = true →
        c2run.raw.runtime.toQ ≠ 0 →
        mf.comm_eff = .num (c2run.raw.useful_max.toQ / c2run.raw.runtime.toQ * 100)) ∧
      ((ipc_of c1_ref.raw).missing → mf.ipc_scale.missing) ∧
      ((freq_of c1_ref.raw).missing → mf.freq_scale.missing) ∧
      (c2run.raw.useful_max = .num 0 → mf.load_balance = .nanStr) :=
  c2_missing_propagation Scaling.strong c1_ref c2run (by decide)

/-! ## C3: the scaling-classifier formula and scenarios -/

theorem scaling_step_num (refRun run : Run) (acc : ℚ)
    (h0 : refRun.raw.useful_ins.isNum = true) (h0q : refRun.raw.useful_ins.toQ ≠ 0)
    (hrp : refRun.p ≠ 0) (hr : run.raw.useful_ins.isNum = true) (hp : run.p ≠ 0) :
    scaling_step refRun (.num acc) run = .ok (.num (acc + instTerm refRun run)) := by
  obtain ⟨qr, hqr⟩ : ∃ q, run.raw.useful_ins = .num q := ⟨_, isNum_eq_num hr⟩
  obtain ⟨q0, hq0⟩ : ∃ q, refRun.raw.useful_ins = .num q := ⟨_, isNum_eq_num h0⟩
  have h0q' : q0 ≠ 0 := by
    rw [hq0] at h0q
    simpa [PyVal.toQ] using h0q
  have hrpq : ((refRun.p : ℚ)) ≠ 0 := by exact_mod_cast hrp
  have hpq : ((run.p : ℚ)) ≠ 0 := by exact_mod_cast hp
  have hratio : (run.p : ℚ) / (refRun.p : ℚ) ≠ 0 := div_ne_zero hpq hrpq
  unfold scaling_step
  rw [hqr, hq0]
  simp only [pyFloat_num, pyDiv_num_num _ h0q', bind_ok, pyDiv_num_num _ hrpq,
    pyDiv_num_num _ hratio, pyAdd_num_num]
  simp [instTerm, hqr, hq0, PyVal.toQ]

theorem foldlM_scaling_step (refRun : Run)
    (h0 : refRun.raw.useful_ins.isNum = true) (h0q : refRun.raw.useful_ins.toQ ≠ 0)
    (hrp : refRun.p ≠ 0) :
    ∀ (l : List Run) (acc : ℚ),
      (∀ r ∈ l, r.raw.useful_ins.isNum = true ∧ r.p ≠ 0) →
      l.foldlM (scaling_step refRun) (.num acc) =
        .ok (.num (acc + (l.map (instTerm refRun)).sum)) := by
  intro l
  induction l with
  | nil =>
      intro acc _
      simp [List.foldlM]
      rfl
  | cons r t ih =>
      intro acc hall
      have hr := hall r (List.mem_cons_self r t)
      simp only [List.foldlM]
      rw [scaling_step_num refRun r acc h0 h0q hrp hr.1 hr.2]
      rw [bind_ok]
      rw [ih (acc + instTerm refRun r) (fun x hx => hall x (List.mem_cons_of_mem _ hx))]
      simp [add_assoc]

theorem length_cast_sub_one_ne {a : Type} (r0 : a) {rest : List a} (hne : rest ≠ []) :
    ((List.length (r0 :: rest) : ℚ)) - 1 ≠ 0 := by
  intro hc
  simp only [List.length_cons] at hc
  push_cast at hc
  have : (rest.length : ℚ) = 0 := by linarith
  have hz : rest.length = 0 := by exact_mod_cast this
  exact hne (List.eq_nil_of_length_eq_zero hz)

theorem computed_scaling_formula (r0 : Run) (rest : List Run)
    (hne : rest ≠ [])
    (h0 : r0.raw.useful_ins.isNum = true) (h0q : r0.raw.useful_ins.toQ ≠ 0)
    (hall : ∀ r ∈ r0 :: rest, r.raw.useful_ins.isNum = true ∧ r.p ≠ 0) :
    computed_scaling (r0 :: rest) =
      .ok (if 9/10 < normalizedQ r0 (r0 :: rest) then Scaling.weak
        else Scaling.strong) := by
  have hrp : r0.p ≠ 0 := (hall r0 (List.mem_cons_self r0 rest)).2
  have hlen := length_cast_sub_one_ne r0 hne
  unfold computed_scaling
  dsimp only
  rw [foldlM_scaling_step r0 h0 h0q hrp (r0 :: rest) 0 hall]
  simp only [bind_ok, pyAdd_num_num, pyDiv_num_num _ hlen, pyGt, decide_eq_true_eq]
  norm_num [normalizedQ, sub_eq_add_neg]

/-- C3.  The classifier formula: for every campaign of at least two
runs with numeric instruction counters, nonzero reference counter and
positive process counts, the auto classification is weak exactly when
`((sum of (ins[run]/ins[ref]) / (P[run]/P[ref])) - 1) / (count - 1)`
exceeds 0.9 and strong otherwise; consequently the three-run campaign
with counts 1000, 4000, 16000 at P = 1, 4, 16 is weak, and any
three-run campaign at P = 1, 4, 16 with a constant nonzero count is
strong. -/
theorem c3_scaling_classifier :
    (∀ (r0 : Run) (rest : List Run), rest ≠ [] →
      r0.raw.useful_ins.isNum = true → r0.raw.useful_ins.toQ ≠ 0 →
      (∀ r ∈ r0 :: rest, r.raw.useful_ins.isNum = true ∧ r.p ≠ 0) →
      get_scaling_type (r0 :: rest) ScalingArg.auto =
        .ok (if 9/10 < normalizedQ r0 (r0 :: rest) then Scaling.weak
          else Scaling.strong, false)) ∧
    get_scaling_type [mkRun 1 1000, mkRun 4 4000, mkRun 16 16000] ScalingArg.auto =
      Except.ok (Scaling.weak, false) ∧
    (∀ c : ℚ, c ≠ 0 →
      get_scaling_type [mkRun 1 c, mkRun 4 c, mkRun 16 c] ScalingArg.auto =
        Except.ok (Scaling.strong, false)) := by
  have main : ∀ (r0 : Run) (rest : List Run), rest ≠ [] →
      r0.raw.useful_ins.isNum = true → r0.raw.useful_ins.toQ ≠ 0 →
      (∀ r ∈ r0 :: rest, r.raw.useful_ins.isNum = true ∧ r.p ≠ 0) →
      get_scaling_type (r0 :: rest) ScalingArg.auto =
        .ok (if 9/10 < normalizedQ r0 (r0 :: rest) then Scaling.weak
          else Scaling.strong, false) := by
    intro r0 rest hne h0 h0q hall
    have hlen1 : (r0 :: rest).length ≠ 1 := by
      simp only [List.length_cons]
      intro hc
      exact hne (List.eq_nil_of_length_eq_zero (by omega))
    rw [get_scaling_type, if_neg hlen1, computed_scaling_formula r0 rest hne h0 h0q hall,
      bind_ok]
  refine ⟨main, by with_unfolding_all rfl, ?_⟩
  intro c hc
  rw [main (mkRun 1 c) [mkRun 4 c, mkRun 16 c] (by simp) rfl
    (by simpa [mkRun, PyVal.toQ] using hc) ?all]
  case all =>
    rintro r hr
    simp only [List.mem_cons, List.not_mem_nil, or_false] at hr
    rcases hr with rfl | rfl | rfl <;> exact ⟨rfl, by norm_num [mkRun]⟩
  have hsum : normalizedQ (mkRun 1 c) [mkRun 1 c, mkRun 4 c, mkRun 16 c] = 5/32 := by
    simp only [normalizedQ, instTerm, mkRun, PyVal.toQ, List.map_cons, List.map_nil,
      List.sum_cons, List.sum_nil, List.length_cons, List.length_nil]
    rw [div_self hc]
    norm_num
  rw [hsum]
  norm_num

/-- C3 witness: a two-run campaign evaluated through the general
formula, and the constant-count scenario at a concrete count 7. -/
theorem c3_scaling_classifier_witness :
    get_scaling_type [mkRun 2 5, mkRun 4 5] ScalingArg.auto =
      .ok (if 9/10 < normalizedQ (mkRun 2 5) [mkRun 2 5, mkRun 4 5] then Scaling.weak
        else Scaling.strong, false) ∧
    get_scaling_type [mkRun 1 7, mkRun 4 7, mkRun 16 7] ScalingArg.auto =
      Except.ok (Scaling.strong, false) :=
  ⟨c3_scaling_classifier.1 (mkRun 2 5) [mkRun 4 5] (by simp) rfl
      (by norm_num [mkRun, PyVal.toQ])
      (by
        rintro r hr
        simp only [List.mem_cons, List.not_mem_nil, or_false] at hr
        rcases hr with rfl | rfl <;> exact ⟨rfl, by norm_num [mkRun]⟩),
    c3_scaling_classifier.2.2 7 (by norm_num)⟩

/-! ## C9: CSV export/import round trip -/

instance : DecidablePred ModFactors.allNum := fun m => by
  unfold ModFactors.allNum; infer_instance

theorem getD_map_lt {a b : Type} (f : a → b) (l : List a) (i : ℕ) (h : i < l.length)
    (d : b) : (l.map f).getD i d = f (l.get ⟨i, h⟩) := by
  simp [List.getD_eq_getElem?_getD, List.getElem?_map, List.getElem?_eq_getElem, h]

theorem read_print_roundtrip (procs : List ℕ) (factors : List ModFactors)
    (hlen : factors.length = procs.length) :
    read_mod_factors_csv (print_mod_factors_csv procs factors) =
      (procs, factors.map rereadMF) := by
  unfold read_mod_factors_csv print_mod_factors_csv
  simp only [Prod.mk.injEq, true_and]
  apply List.ext_getElem
  · simp [hlen]
  · intro i h1 h2
    have hif : i < factors.length := by simpa using h2
    simp only [List.getElem_map, List.getElem_range]
    show ModFactors.mk
        (import_cell ((factors.map (fun m => export_cell m.parallel_eff)).getD i none))
        (import_cell ((factors.map (fun m => export_cell m.load_balance)).getD i none))
        (import_cell ((factors.map (fun m => export_cell m.comm_eff)).getD i none))
        (import_cell ((factors.map (fun m => export_cell m.serial_eff)).getD i none))
        (import_cell ((factors.map (fun m => export_cell m.transfer_eff)).getD i none))
        (import_cell ((factors.map (fun m => export_cell m.comp_scale)).getD i none))
        (import_cell ((factors.map (fun m => export_cell m.global_eff)).getD i none))
        (import_cell ((factors.map (fun m => export_cell m.ipc_scale)).getD i none))
        (import_cell ((factors.map (fun m => export_cell m.inst_scale)).getD i none))
        (import_cell ((factors.map (fun m => export_cell m.freq_scale)).getD i none))
        (import_cell ((factors.map (fun m => export_cell m.speedup)).getD i none))
        (import_cell ((factors.map (fun m => export_cell m.ipc)).getD i none))
        (import_cell ((factors.map (fun m => export_cell m.freq)).getD i none)) =
      rereadMF (factors.get ⟨i, hif⟩)
    simp only [getD_map_lt _ _ _ hif]
    rfl

theorem close6_reread {v : PyVal} (h : v.isNum = true) : close6 (reread v) v := by
  obtain ⟨q, hq⟩ : ∃ q, v = .num q := ⟨_, isNum_eq_num h⟩
  subst hq
  refine ⟨((round (q * 1000000) : ℤ) : ℚ) / 1000000, q, rfl, rfl, ?_⟩
  have h1 : |((round (q * 1000000) : ℤ) : ℚ) - q * 1000000| ≤ 1 / 2 := by
    have h2 := abs_sub_round (q * 1000000)
    rwa [abs_sub_comm] at h2
  have heq : ((round (q * 1000000) : ℤ) : ℚ) / 1000000 - q =
      (((round (q * 1000000) : ℤ) : ℚ) - q * 1000000) / 1000000 := by ring
  rw [heq, abs_div, abs_of_pos (by norm_num : (0 : ℚ) < 1000000)]
  linarith

theorem fieldsList_rereadMF (m : ModFactors) :
    (rereadMF m).fieldsList = m.fieldsList.map reread := rfl

theorem forall₂_close6_reread (l : List PyVal) (h : ∀ v ∈ l, v.isNum = true) :
    List.Forall₂ close6 (l.map reread) l := by
  induction l with
  | nil => exact List.Forall₂.nil
  | cons v t ih =>
      exact List.Forall₂.cons (close6_reread (h v (List.mem_cons_self v t)))
        (ih (fun x hx => h x (List.mem_cons_of_mem _ hx)))

theorem MFclose_rereadMF {m : ModFactors} (h : m.allNum) : MFclose (rereadMF m) m := by
  unfold MFclose
  rw [fieldsList_rereadMF]
  exact forall₂_close6_reread _ h

theorem forall₂_MFclose_map (fs : List ModFactors) (h : ∀ m ∈ fs, m.allNum) :
    List.Forall₂ MFclose (fs.map rereadMF) fs := by
  induction fs with
  | nil => exact List.Forall₂.nil
  | cons m t ih =>
      exact List.Forall₂.cons (MFclose_rereadMF (h m (List.mem_cons_self m t)))
        (ih (fun x hx => h x (List.mem_cons_of_mem _ hx)))

/-- C9.  Exporting a finite factor table to CSV (factor rows in
declared key order, each value to six decimal places) and re-importing
it yields run process counts equal to the exported header fields, and
for every run and every factor a value equal to the original to six
decimal places. -/
theorem c9_csv_roundtrip (procs : List ℕ) (factors : List ModFactors)
    (hlen : factors.length = procs.length) (hnum : ∀ m ∈ factors, m.allNum) :
    (read_mod_factors_csv (print_mod_factors_csv procs factors)).1 = procs ∧
    List.Forall₂ MFclose
      (read_mod_factors_csv (print_mod_factors_csv procs factors)).2 factors := by
  rw [read_print_roundtrip procs factors hlen]
  exact ⟨rfl, forall₂_MFclose_map factors hnum⟩

/-- A finite factor set exercising the round trip (values with
non-terminating decimal expansions included). -/
def c9mf : ModFactors :=
  ⟨.num (1/3), .num 100, .num (850/3), .num 0, .num (-7/2), .num 1, .num 2,
   .num 3, .num 4, .num 5, .num 6, .num 7, .num (21/850)⟩

/-- C9 witness: one run at P = 4 with the concrete finite factor set. -/
theorem c9_csv_roundtrip_witness :
    (read_mod_factors_csv (print_mod_factors_csv [4] [c9mf])).1 = [4] ∧
    List.Forall₂ MFclose
      (read_mod_factors_csv (print_mod_factors_csv [4] [c9mf])).2 [c9mf] :=
  c9_csv_roundtrip [4] [c9mf] rfl (by with_unfolding_all decide)

/-! ## C10: exception safety of `compute_model_factors` -/

/-- C10 counterexample.  With two runs and a reference instruction
count of zero, the unguarded division in `get_scaling_type` raises
`ZeroDivisionError`, which escapes `compute_model_factors` — refuting
the claim that it returns normally for every raw-data table of
finite/zero/missing counters. -/
theorem c10_no_escape_counterexample :
    compute_model_factors [mkRun 1 0, mkRun 2 0] ScalingArg.auto =
      Except.error () := by
  with_unfolding_all rfl

theorem pyDiv_ok {a b : PyVal} (ha : a ≠ .nanStr) (hb : b ≠ .nanStr)
    (hb0 : b ≠ .num 0) : ∃ v, pyDiv a b = .ok v ∧ v ≠ .nanStr := by
  cases a with
  | nanStr => exact absurd rfl ha
  | num qa =>
      cases b with
      | nanStr => exact absurd rfl hb
      | num qb =>
          have hq : qb ≠ 0 := fun h => hb0 (by rw [h])
          exact ⟨_, pyDiv_num_num qa hq, by simp⟩
      | nan => exact ⟨.nan, rfl, by simp⟩
  | nan =>
      cases b with
      | nanStr => exact absurd rfl hb
      | num qb =>
          have hq : qb ≠ 0 := fun h => hb0 (by rw [h])
          exact ⟨.nan, by simp [pyDiv, hq], by simp⟩
      | nan => exact ⟨.nan, rfl, by simp⟩

theorem pyAdd_ok {a b : PyVal} (ha : a ≠ .nanStr) (hb : b ≠ .nanStr) :
    ∃ v, pyAdd a b = .ok v ∧ v ≠ .nanStr := by
  cases a <;> cases b <;> simp_all [pyAdd]

theorem scaling_step_ok (refRun run : Run) (acc : PyVal)
    (h0 : refRun.raw.useful_ins ≠ .num 0) (hrp : refRun.p ≠ 0) (hp : run.p ≠ 0)
    (hacc : acc ≠ .nanStr) :
    ∃ v, scaling_step refRun acc run = .ok v ∧ v ≠ .nanStr := by
  obtain ⟨i, hi, hins⟩ := pyDiv_ok (pyFloat_ne_nanStr run.raw.useful_ins)
    (pyFloat_ne_nanStr refRun.raw.useful_ins) (pyFloat_ne_zero h0)
  have hrpq : ((refRun.p : ℚ)) ≠ 0 := by exact_mod_cast hrp
  have hpq : ((run.p : ℚ)) ≠ 0 := by exact_mod_cast hp
  have hpr : pyDiv (.num (run.p : ℚ)) (.num (refRun.p : ℚ)) =
      .ok (.num ((run.p : ℚ) / (refRun.p : ℚ))) := pyDiv_num_num _ hrpq
  have hratio : (run.p : ℚ) / (refRun.p : ℚ) ≠ 0 := div_ne_zero hpq hrpq
  obtain ⟨t, ht, hts⟩ := pyDiv_ok hins
    (show (PyVal.num ((run.p : ℚ) / (refRun.p : ℚ))) ≠ .nanStr by simp)
    (fun hc => hratio (PyVal.num.inj hc))
  obtain ⟨v, hv, hvs⟩ := pyAdd_ok hacc hts
  refine ⟨v, ?_, hvs⟩
  unfold scaling_step
  rw [hi, bind_ok, hpr, bind_ok, ht, bind_ok, hv]

theorem foldlM_scaling_ok (refRun : Run)
    (h0 : refRun.raw.useful_ins ≠ .num 0) (hrp : refRun.p ≠ 0) :
    ∀ (l : List Run) (acc : PyVal), acc ≠ .nanStr → (∀ r ∈ l, r.p ≠ 0) →
      ∃ v, l.foldlM (scaling_step refRun) acc = .ok v ∧ v ≠ .nanStr := by
  intro l
  induction l with
  | nil =>
      intro acc hacc _
      exact ⟨acc, rfl, hacc⟩
  | cons r t ih =>
      intro acc hacc hall
      obtain ⟨v1, hv1, hv1s⟩ :=
        scaling_step_ok refRun r acc h0 hrp (hall r (List.mem_cons_self r t)) hacc
      obtain ⟨v2, hv2, hv2s⟩ := ih v1 hv1s (fun x hx => hall x (List.mem_cons_of_mem _ hx))
      refine ⟨v2, ?_, hv2s⟩
      simp only [List.foldlM]
      rw [hv1, bind_ok, hv2]

theorem computed_scaling_ok (r0 : Run) (rest : List Run)
    (h0 : r0.raw.useful_ins ≠ .num 0) (hall : ∀ r ∈ r0 :: rest, r.p ≠ 0)
    (hne : rest ≠ []) :
    ∃ c, computed_scaling (r0 :: rest) = .ok c := by
  have hrp := hall r0 (List.mem_cons_self r0 rest)
  obtain ⟨s, hs, hss⟩ :=
    foldlM_scaling_ok r0 h0 hrp (r0 :: rest) (.num 0) (by simp) hall
  obtain ⟨d, hd, hds⟩ := pyAdd_ok hss (show (PyVal.num (-1)) ≠ .nanStr by simp)
  have hlen := length_cast_sub_one_ne r0 hne
  obtain ⟨n, hn, -⟩ := pyDiv_ok hds
    (show (PyVal.num (((r0 :: rest).length : ℚ) - 1)) ≠ .nanStr by simp)
    (fun hc => hlen (PyVal.num.inj hc))
  refine ⟨if pyGt n (9/10) then Scaling.weak else Scaling.strong, ?_⟩
  unfold computed_scaling
  dsimp only
  rw [hs, bind_ok, hd, bind_ok, hn, bind_ok]

theorem compute_trace_ok (scaling : Scaling) (refRun run : Run)
    (hrp : refRun.p ≠ 0) :
    ∃ mf, compute_trace scaling refRun run = .ok mf := by
  have hrpq : ((refRun.p : ℚ)) ≠ 0 := by exact_mod_cast hrp
  unfold compute_trace
  rw [pyDiv_num_num _ hrpq]
  exact ⟨_, rfl⟩

theorem mapM_compute_trace_ok (scaling : Scaling) (refRun : Run)
    (hrp : refRun.p ≠ 0) :
    ∀ l : List Run,
      ∃ ms, l.mapM (compute_trace scaling refRun) = .ok ms ∧ ms.length = l.length := by
  intro l
  induction l with
  | nil => exact ⟨[], rfl, rfl⟩
  | cons r t ih =>
      obtain ⟨mf, hmf⟩ := compute_trace_ok scaling refRun r hrp
      obtain ⟨ms, hms, hmslen⟩ := ih
      refine ⟨mf :: ms, ?_, by simp [hmslen]⟩
      rw [List.mapM_cons, hmf, bind_ok, hms, bind_ok]
      rfl

/-- C10 amended.  For every non-empty run list with positive process
counts whose reference instruction count is not the number zero (or
with a single run, where the classifier returns early),
`compute_model_factors` returns normally with one factor set per run;
by construction of `PyVal` every entry of the result is a number, the
float nan, or the `'NaN'` string — never a partially computed value.
The zero reference instruction count excluded here is exactly the
counterexample's escaping `ZeroDivisionError` in `get_scaling_type`. -/
theorem c10_no_escape_amended (mode : ScalingArg) (r0 : Run) (rest : List Run)
    (h0 : rest = [] ∨ r0.raw.useful_ins ≠ .num 0)
    (hall : ∀ r ∈ r0 :: rest, r.p ≠ 0) :
    ∃ ms, compute_model_factors (r0 :: rest) mode = .ok ms ∧
      ms.length = (r0 :: rest).length := by
  have hrp := hall r0 (List.mem_cons_self r0 rest)
  obtain ⟨st, hst⟩ : ∃ st, get_scaling_type (r0 :: rest) mode = .ok st := by
    rcases eq_or_ne rest [] with hr | hr
    · subst hr
      exact ⟨(Scaling.strong, false), by simp [get_scaling_type]⟩
    · have h0' : r0.raw.useful_ins ≠ .num 0 := by
        rcases h0 with h | h
        · exact absurd h hr
        · exact h
      obtain ⟨c, hc⟩ := computed_scaling_ok r0 rest h0' hall hr
      have hlen1 : (r0 :: rest).length ≠ 1 := by
        simp only [List.length_cons]
        intro hcc
        exact hr (List.eq_nil_of_length_eq_zero (by omega))
      cases mode <;>
        exact ⟨_, by rw [get_scaling_type, if_neg hlen1, hc, bind_ok]⟩
  obtain ⟨ms, hms, hmslen⟩ := mapM_compute_trace_ok st.1 r0 hrp (r0 :: rest)
  refine ⟨ms, ?_, hmslen⟩
  unfold compute_model_factors
  rw [hst, bind_ok]
  exact hms

/-- C10 amended, witness: a two-run campaign with nonzero counters. -/
theorem c10_no_escape_amended_witness :
    ∃ ms, compute_model_factors [mkRun 1 1000, mkRun 2 2000] ScalingArg.auto =
      .ok ms ∧ ms.length = [mkRun 1 1000, mkRun 2 2000].length :=
  c10_no_escape_amended ScalingArg.auto (mkRun 1 1000) [mkRun 2 2000]
    (Or.inr (by with_unfolding_all decide)) (by decide)

end BasicAnalysis
